import Mathlib

/-!
Shallow embedding of the lighting core of citro3d-rs,
translated from src/citro3d/src/light.rs.

Modelling conventions:

- Rust `f32` values are modelled as `ℚ`.  Every floating-point operation the
  verified claims depend on is exact in IEEE binary32: the sampled abscissae
  are `i / 256` and `i / 128` (small integers divided by powers of two), and
  the only value-level fact proved about a concrete curve concerns the
  identity curve, whose samples and sample differences are again small
  multiples of `1/256` and hence exact.
- Fallible operations (Rust panics: failed `assert!`, out-of-range slice
  indexing, `usize` underflow followed by an out-of-range access, `unwrap`
  of `None`) are modelled with `Option`: `none` is a panic/abort.
- The calls into the external C library `citro3d_sys` (C3D_LightEnvInit,
  C3D_LightInit, C3D_LightEnvLut, C3D_LightEnvMaterial, C3D_Light*) mutate
  opaque GPU-side state.  That library is an external collaborator, not part
  of this repository; its observable interaction at this boundary (which
  reference, null or not, is handed over by connect_lut; which fields of the
  per-light raw state the Light mutators write) is recorded explicitly in
  the model types below.
-/

namespace Citro3d

/-- Rust constant NB_LIGHTS: usize = 8, the number of hardware lights. -/
abbrev NB_LIGHTS : ℕ := 8

/-- Rust constant LUT_SZ: usize = 512, the size of the sample array built by
LutData::from_fn. -/
abbrev LUT_SZ : ℕ := 512

/-- LightIndex(u8): index of one of the 8 hardware lights.  The tuple field is
private in Rust and every constructor enforces the range check, so the carrier
is modelled as Fin NB_LIGHTS (the u8 cast in the constructor is the identity
for values below 8). -/
structure LightIndex where
  val : Fin NB_LIGHTS
deriving DecidableEq

/-- LightIndex::new(idx): asserts idx < NB_LIGHTS (panic, modelled as none,
when the assert fails) and otherwise wraps idx as u8. -/
def LightIndex.new (idx : ℕ) : Option LightIndex :=
  if h : idx < NB_LIGHTS then some ⟨⟨idx, h⟩⟩ else none

/-- LightIndex::as_usize. -/
def LightIndex.as_usize (l : LightIndex) : ℕ := l.val.val

/-- The 512-float sample array handed to LightLut_FromArray.  The hardware
encoding step LightLut_FromArray is external C code; LutData is modelled by
the sample array it receives. -/
def LutTable : Type := ℕ → ℚ

/-- LutData: an encoded lighting lookup table. -/
structure LutData where
  data : LutTable

/-- Modelled from the spec: the material module is not under src/; the spec
says the material description is opaque to this subsystem and copied in by
value, so it is modelled as an opaque token. -/
structure Material where
  mk ::

/-- Per-light raw hardware state written by the Light mutators through
C3D_LightPosition / C3D_LightColor / C3D_LightEnable / C3D_LightShadowEnable.
The C side is external; only the fields these four writes touch are kept. -/
structure RawLight where
  position : ℚ × ℚ × ℚ × ℚ
  color : ℚ × ℚ × ℚ
  enabled : Bool
  shadow : Bool

/-- The zeroed C3D_Light value produced by MaybeUninit::zeroed() in
create_light (C3D_LightInit then initializes GPU-side fields we do not
track). -/
def RawLight.zeroed : RawLight := ⟨(0, 0, 0, 0), (0, 0, 0), false, false⟩

/-- Light: raw hardware state plus the two per-light optional LUTs. -/
structure Light where
  raw : RawLight
  spot : Option LutData
  diffuse_atten : Option LutData

/-- Light::new(raw): both per-light LUT fields start as their Default,
None. -/
def Light.new (raw : RawLight) : Light := ⟨raw, none, none⟩

/-- Environment-level raw hardware state: C3D_LightEnvMaterial copies the
material description by value into the C3D_LightEnv. -/
structure RawEnv where
  material : Option Material

/-- LightEnv: the raw hardware environment, the 8 light slots and the 6
shared LUT slots. -/
structure LightEnv where
  raw : RawEnv
  lights : Fin NB_LIGHTS → Option Light
  luts : Fin 6 → Option LutData

/-- LightEnv::new / Default: zeroed raw state, every light slot and every
shared LUT slot empty. -/
def LightEnv.new : LightEnv := ⟨⟨none⟩, fun _ => none, fun _ => none⟩

/-- PinArray::get_pin (external pin_array crate): checked indexing into the
light array, None when the index is out of range. -/
def getPin (a : Fin NB_LIGHTS → Option Light) (n : ℕ) : Option (Option Light) :=
  if h : n < NB_LIGHTS then some (a ⟨n, h⟩) else none

/-- LightEnv::light_mut: get_pin(idx.0 as usize).unwrap().as_pin_mut().
The unwrap cannot panic since idx.0 < 8 by the LightIndex invariant, which is
why it is discharged with a proof here; as_pin_mut maps the slot content to
the returned optional view. -/
def LightEnv.light_mut (env : LightEnv) (idx : LightIndex) : Option Light :=
  (getPin env.lights idx.as_usize).get (by
    simp [getPin, LightIndex.as_usize, idx.val.isLt])

/-- LightEnv::create_light: scan the slots in increasing index order for the
first empty one (iter().enumerate().find on is_none); if none, return None.
Otherwise construct Light::new over a zeroed raw value in place and return
the index.  C3D_LightInit acts on the external GPU state, which stays in
lock-step with the slot array, so the two defensive asserts on its result
cannot fire; LightIndex::new(idx) always passes its range check here. -/
def LightEnv.create_light (env : LightEnv) : LightEnv × Option LightIndex :=
  match (List.finRange NB_LIGHTS).find? (fun n => (env.lights n).isNone) with
  | none => (env, none)
  | some idx =>
      ({ env with lights := Function.update env.lights idx (some (Light.new RawLight.zeroed)) },
       some ⟨idx⟩)

/-- LightLutId: the eight LUT-role identifiers. -/
inductive LightLutId where
  | D0
  | D1
  | SpotLightAttenuation
  | Fresnel
  | ReflectBlue
  | ReflectGreen
  | ReflectRed
  | DistanceAttenuation
deriving DecidableEq

/-- LutInput: which per-fragment quantity indexes a connected table. -/
inductive LutInput where
  | CosPhi
  | LightNormal
  | NormalHalf
  | NormalView
  | LightSpotLight
  | ViewHalf
deriving DecidableEq

/-- The match at the top of LightEnv::connect_lut mapping a LightLutId to the
index of its shared LUT slot (None for the two identifiers that have no
shared slot). -/
def lutSlotIndex : LightLutId → Option (Fin 6)
  | .D0 => some 0
  | .D1 => some 1
  | .SpotLightAttenuation => none
  | .Fresnel => some 2
  | .ReflectBlue => some 3
  | .ReflectGreen => some 4
  | .ReflectRed => some 5
  | .DistanceAttenuation => none

/-- LightEnv::connect_lut: when the id maps to a shared slot, Option::insert
stores the data there (replacing any previous occupant) and a reference to
the stored table is handed to C3D_LightEnvLut; otherwise the slots are
untouched and a null pointer is handed over.  The second component of the
result records that reference (none is the null pointer).  The input selector
is forwarded to the hardware only. -/
def LightEnv.connect_lut (env : LightEnv) (id : LightLutId) (input : LutInput)
    (data : LutData) : LightEnv × Option LutData :=
  match lutSlotIndex id with
  | some i => ({ env with luts := Function.update env.luts i (some data) }, some data)
  | none => (env, none)

/-- LightEnv::set_material: C3D_LightEnvMaterial copies the material by value
into the raw environment state. -/
def LightEnv.set_material (env : LightEnv) (mat : Material) : LightEnv :=
  { env with raw := { env.raw with material := some mat } }

/-- Light::set_position: promotes the 3-vector to an FVec4 with w = 1 and
writes it through C3D_LightPosition.  FVec3/FVec4 come from the math module,
which is not under src/; modelled from the spec as plain rational tuples. -/
def Light.set_position (l : Light) (p : ℚ × ℚ × ℚ) : Light :=
  { l with raw := { l.raw with position := (p.1, p.2.1, p.2.2, 1) } }

/-- Light::set_color via C3D_LightColor: three unclamped channels. -/
def Light.set_color (l : Light) (r g b : ℚ) : Light :=
  { l with raw := { l.raw with color := (r, g, b) } }

/-- Light::set_enabled via C3D_LightEnable. -/
def Light.set_enabled (l : Light) (enabled : Bool) : Light :=
  { l with raw := { l.raw with enabled := enabled } }

/-- Light::set_shadow via C3D_LightShadowEnable. -/
def Light.set_shadow (l : Light) (shadow : Bool) : Light :=
  { l with raw := { l.raw with shadow := shadow } }

/-- State of a fresh environment after n calls to create_light (each call
keeps the environment and discards the returned index). -/
def afterCreates : ℕ → LightEnv
  | 0 => LightEnv.new
  | n + 1 => ((afterCreates n).create_light).1

/-- Result of the (n+1)-st call to create_light on a fresh environment. -/
def createResult (n : ℕ) : Option LightIndex :=
  ((afterCreates n).create_light).2

/-- Checked indexing write data[j] = v into the 512-entry sample array
(Rust slice indexing panics when out of range, modelled as none). -/
def tblWrite (A : LutTable) (j : ℕ) (v : ℚ) : Option LutTable :=
  if j < LUT_SZ then some (fun k => if k = j then v else A k) else none

/-- Checked indexing read data[j] from the sample array. -/
def tblRead (A : LutTable) (j : ℕ) : Option ℚ :=
  if j < LUT_SZ then some (A j) else none

/-- Rust usize subtraction a - b.  Underflow panics in a debug build; in a
release build it wraps, and the wrapped value (at least 2^64 - 512 here) is
then out of range for the 512-entry array, so the subsequent indexing
panics.  Both builds abort, modelled as none. -/
def usizeSub (a b : ℕ) : Option ℕ :=
  if b ≤ a then some (a - b) else none

/-- One iteration of the loop in LutData::from_fn at step i.  The index
expression (if negative then i and 0xFF else i) as usize is modelled with
(i % 256).toNat in the negative branch: masking the two's-complement i32 by
0xFF is exactly the nonnegative residue mod 256. -/
def lutStep (f : ℚ → ℚ) (negative : Bool) (min max : ℤ) (A : LutTable)
    (i : ℤ) : Option LutTable :=
  let x : ℚ := (i : ℚ) / (max : ℚ)
  let v : ℚ := f x
  let idx : ℕ := if negative then (i % 256).toNat else i.toNat
  (if i < max then tblWrite A idx v else some A).bind fun A1 =>
    if min < i then
      (usizeSub idx 1).bind fun p =>
        (tblRead A1 p).bind fun prev => tblWrite A1 (idx + 255) (v - prev)
    else some A1

/-- The loop for i in min..=max of LutData::from_fn, with the number of
remaining iterations as fuel. -/
def lutLoop (f : ℚ → ℚ) (negative : Bool) (min max : ℤ) :
    ℕ → ℤ → LutTable → Option LutTable
  | 0, _, A => some A
  | n + 1, i, A =>
      (lutStep f negative min max A i).bind (lutLoop f negative min max n (i + 1))

/-- LutData::from_fn.  The assert_eq! on abs_diff is the leading guard (its
failure would panic, modelled as none; it in fact always holds); the loop
runs i from min to max inclusive, 2*128 + 1 iterations, over a
zero-initialised array; the final array is handed to LightLut_FromArray
(external hardware encoding; the sample array itself is the model of the
result). -/
def LutData.from_fn (f : ℚ → ℚ) (negative : Bool) : Option LutData :=
  let base : ℤ := 128
  let diff : ℤ := if negative then 0 else base
  let min : ℤ := -128 + diff
  let max : ℤ := base + diff
  if (min - max).natAbs = 2 * base.toNat then
    (lutLoop f negative min max ((max - min).toNat + 1) min (fun _ => 0)).map LutData.mk
  else none

/-- Entry k of the table produced by from_fn (none when from_fn panics). -/
def fromFnEntry (f : ℚ → ℚ) (negative : Bool) (k : ℕ) : Option ℚ :=
  (LutData.from_fn f negative).map fun d => d.data k

/-- Reference description of the sample array after the non-negative-mode
loop iterations i = 0..m: base samples at the entries k with k ≤ 255 and
k ≤ m, forward differences at the entries 256..255+m, zero elsewhere. -/
def refT (f : ℚ → ℚ) (m : ℕ) : LutTable := fun k =>
  if k ≤ 255 ∧ k ≤ m then f ((k : ℚ) / 256)
  else if 256 ≤ k ∧ k ≤ 255 + m then
    f (((k : ℚ) - 255) / 256) - f (((k : ℚ) - 256) / 256)
  else 0

/-- The mutating operations a caller can perform on a LightEnv through the
public interface; the four Light mutators act through light_mut on the slot
named by the handle. -/
inductive LightEnvOp where
  | createLight : LightEnvOp
  | connectLut : LightLutId → LutInput → LutData → LightEnvOp
  | setMaterial : Material → LightEnvOp
  | setPosition : LightIndex → ℚ × ℚ × ℚ → LightEnvOp
  | setColor : LightIndex → ℚ → ℚ → ℚ → LightEnvOp
  | setEnabled : LightIndex → Bool → LightEnvOp
  | setShadow : LightIndex → Bool → LightEnvOp

/-- Apply a Light mutator through light_mut: when the slot is occupied the
exclusive view writes land back in that slot; when light_mut returns None
there is no light to mutate. -/
def LightEnv.modify_light (env : LightEnv) (idx : LightIndex) (g : Light → Light) :
    LightEnv :=
  match env.light_mut idx with
  | some l => { env with lights := Function.update env.lights idx.val (some (g l)) }
  | none => env

/-- One public operation on the environment. -/
def LightEnv.applyOp (env : LightEnv) : LightEnvOp → LightEnv
  | .createLight => (env.create_light).1
  | .connectLut id input data => (env.connect_lut id input data).1
  | .setMaterial m => env.set_material m
  | .setPosition idx p => env.modify_light idx (fun l => l.set_position p)
  | .setColor idx r g b => env.modify_light idx (fun l => l.set_color r g b)
  | .setEnabled idx b => env.modify_light idx (fun l => l.set_enabled b)
  | .setShadow idx b => env.modify_light idx (fun l => l.set_shadow b)

/-- A sequence of public operations, applied in program order. -/
def LightEnv.applyOps (env : LightEnv) (ops : List LightEnvOp) : LightEnv :=
  ops.foldl LightEnv.applyOp env

/-- The C10 invariant: every occupied light slot has both per-light LUT
fields still None. -/
def lutFreeInv (env : LightEnv) : Prop :=
  ∀ (i : Fin NB_LIGHTS) (l : Light), env.lights i = some l →
    l.spot = none ∧ l.diffuse_atten = none

/-- Claim C1: on a freshly constructed LightEnv the first 8 calls to
create_light return Some with the distinct indices 0,1,2,3,4,5,6,7 in
increasing order, and the 9th call returns None (capacity exhaustion). -/
theorem create_light_first_eight_then_exhausted :
    createResult 0 = some ⟨0⟩ ∧ createResult 1 = some ⟨1⟩ ∧
    createResult 2 = some ⟨2⟩ ∧ createResult 3 = some ⟨3⟩ ∧
    createResult 4 = some ⟨4⟩ ∧ createResult 5 = some ⟨5⟩ ∧
    createResult 6 = some ⟨6⟩ ∧ createResult 7 = some ⟨7⟩ ∧
    createResult 8 = none := by
  decide

/-- Claim C5: connect_lut with SpotLightAttenuation or DistanceAttenuation
stores nothing: the environment (all six shared LUT slots and every light
slot) is returned exactly as it was, and the hardware is handed a null LUT
reference regardless of the data argument. -/
theorem connect_lut_spot_distance_noop (env : LightEnv) (input : LutInput)
    (data : LutData) :
    env.connect_lut .SpotLightAttenuation input data = (env, none) ∧
    env.connect_lut .DistanceAttenuation input data = (env, none) := by
  constructor <;> rfl

/-- Claim C6: for every environment and every (necessarily in-range) light
index, light_mut returns exactly the content of slot idx: Some if and only if
the slot is occupied, None if it is still empty. -/
theorem light_mut_some_iff_occupied (env : LightEnv) (idx : LightIndex) :
    env.light_mut idx = env.lights idx.val ∧
    ((env.light_mut idx).isSome ↔ (env.lights idx.val).isSome) := by
  have h : env.light_mut idx = env.lights idx.val := by
    simp [LightEnv.light_mut, getPin, LightIndex.as_usize, idx.val.isLt]
  exact ⟨h, by rw [h]⟩

/-- Claim C7: for each identifier that maps to a shared slot (D0, D1,
Fresnel, ReflectBlue, ReflectGreen, ReflectRed), connect_lut stores the data
in that slot, replacing its previous occupant, leaves every other shared slot
and all light slots unchanged, and hands the stored table to the hardware. -/
theorem connect_lut_stores_in_assigned_slot (env : LightEnv) (id : LightLutId)
    (input : LutInput) (data : LutData) (i : Fin 6)
    (h : lutSlotIndex id = some i) :
    (env.connect_lut id input data).1.luts i = some data ∧
    (∀ j : Fin 6, j ≠ i → (env.connect_lut id input data).1.luts j = env.luts j) ∧
    (env.connect_lut id input data).1.lights = env.lights ∧
    (env.connect_lut id input data).2 = some data := by
  have e : env.connect_lut id input data =
      ({ env with luts := Function.update env.luts i (some data) }, some data) := by
    unfold LightEnv.connect_lut
    rw [h]
  refine ⟨?_, fun j hj => ?_, ?_, ?_⟩
  · rw [e]; simp
  · rw [e]; simp [Function.update_noteq hj]
  · rw [e]
  · rw [e]

/-- Witness for C7 at the concrete identifier D0 on a fresh environment. -/
theorem connect_lut_stores_in_assigned_slot_witness :
    lutSlotIndex .D0 = some 0 ∧
    (LightEnv.new.connect_lut .D0 .LightNormal ⟨fun _ => 0⟩).1.luts 0 =
      some ⟨fun _ => 0⟩ := by
  exact ⟨rfl,
    (connect_lut_stores_in_assigned_slot LightEnv.new .D0 .LightNormal
      ⟨fun _ => 0⟩ 0 rfl).1⟩

/-- Claim C8: LightIndex::new(idx) panics (modelled as none) for every
idx ≥ 8, and for every idx < 8 it succeeds and round-trips through
as_usize. -/
theorem light_index_new_range (idx : ℕ) :
    (NB_LIGHTS ≤ idx → LightIndex.new idx = none) ∧
    (∀ h : idx < NB_LIGHTS, ∃ l, LightIndex.new idx = some l ∧ l.as_usize = idx) := by
  constructor
  · intro h
    simp [LightIndex.new, Nat.not_lt.mpr h]
  · intro h
    exact ⟨⟨⟨idx, h⟩⟩, by simp [LightIndex.new, h], rfl⟩

/-- Witness for C8 at idx = 15 (abort) and idx = 7 (round-trip). -/
theorem light_index_new_range_witness :
    (NB_LIGHTS ≤ 15 ∧ LightIndex.new 15 = none) ∧
    (7 < NB_LIGHTS ∧ ∃ l, LightIndex.new 7 = some l ∧ l.as_usize = 7) := by
  exact ⟨⟨by decide, (light_index_new_range 15).1 (by decide)⟩,
    ⟨by decide, (light_index_new_range 7).2 (by decide)⟩⟩

lemma lutStep_false_def (f : ℚ → ℚ) (min max : ℤ) (A : LutTable) (i : ℤ) :
    lutStep f false min max A i =
      (if i < max then tblWrite A i.toNat (f ((i : ℚ) / (max : ℚ))) else some A).bind fun A1 =>
        if min < i then
          (usizeSub i.toNat 1).bind fun p =>
            (tblRead A1 p).bind fun prev =>
              tblWrite A1 (i.toNat + 255) (f ((i : ℚ) / (max : ℚ)) - prev)
        else some A1 := rfl

lemma lutStep_true_def (f : ℚ → ℚ) (min max : ℤ) (A : LutTable) (i : ℤ) :
    lutStep f true min max A i =
      (if i < max then tblWrite A (i % 256).toNat (f ((i : ℚ) / (max : ℚ))) else some A).bind fun A1 =>
        if min < i then
          (usizeSub (i % 256).toNat 1).bind fun p =>
            (tblRead A1 p).bind fun prev =>
              tblWrite A1 ((i % 256).toNat + 255) (f ((i : ℚ) / (max : ℚ)) - prev)
        else some A1 := rfl

lemma lutStep_false_zero (f : ℚ → ℚ) :
    lutStep f false 0 256 (fun _ => 0) 0 = some (refT f 0) := by
  rw [lutStep_false_def]
  norm_num [tblWrite, LUT_SZ]
  funext k
  simp only [refT]
  by_cases h0 : k = 0
  · subst h0; norm_num
  · rw [if_neg h0, if_neg (by omega), if_neg (by omega)]

lemma lutStep_false_mid (f : ℚ → ℚ) (m : ℕ) (h1 : 1 ≤ m) (h2 : m ≤ 255) :
    lutStep f false 0 256 (refT f (m - 1)) (m : ℤ) = some (refT f m) := by
  rw [lutStep_false_def]
  rw [if_pos (by omega : (m : ℤ) < 256)]
  rw [show ((m : ℤ).toNat) = m by omega]
  rw [tblWrite, if_pos (by simp only [LUT_SZ]; omega : m < LUT_SZ), Option.some_bind,
    if_pos (by omega : (0 : ℤ) < (m : ℤ)), usizeSub, if_pos (by omega : 1 ≤ m),
    Option.some_bind, tblRead, if_pos (by simp only [LUT_SZ]; omega : m - 1 < LUT_SZ),
    Option.some_bind, tblWrite, if_pos (by simp only [LUT_SZ]; omega : m + 255 < LUT_SZ)]
  have hx : ((m : ℤ) : ℚ) / ((256 : ℤ) : ℚ) = (m : ℚ) / 256 := by push_cast; ring
  rw [hx]
  rw [if_neg (by omega : ¬(m - 1 = m))]
  have hprev : refT f (m - 1) (m - 1) = f (((m : ℚ) - 1) / 256) := by
    have hc : ((m - 1 : ℕ) : ℚ) = (m : ℚ) - 1 := by
      push_cast [h1]; ring
    simp only [refT]
    rw [if_pos ⟨by omega, le_refl _⟩, hc]
  rw [hprev]
  refine congrArg some ?_
  funext k
  simp only [refT]
  by_cases e1 : k = m + 255
  · subst e1
    rw [if_pos rfl, if_neg (by omega), if_pos (by omega : 256 ≤ m + 255 ∧ m + 255 ≤ 255 + m)]
    have a1 : (((m + 255 : ℕ) : ℚ) - 255) / 256 = (m : ℚ) / 256 := by push_cast; ring
    have a2 : (((m + 255 : ℕ) : ℚ) - 256) / 256 = ((m : ℚ) - 1) / 256 := by push_cast; ring
    rw [a1, a2]
  · rw [if_neg e1]
    by_cases e2 : k = m
    · rw [if_pos e2, e2, if_pos (by omega : m ≤ 255 ∧ m ≤ m)]
    · rw [if_neg e2]
      split_ifs <;> first | rfl | omega

lemma lutStep_false_last (f : ℚ → ℚ) :
    lutStep f false 0 256 (refT f 255) (256 : ℤ) = some (refT f 256) := by
  rw [lutStep_false_def]
  rw [if_neg (by omega : ¬((256 : ℤ) < 256))]
  rw [show ((256 : ℤ).toNat) = 256 by omega]
  rw [Option.some_bind, if_pos (by omega : (0 : ℤ) < (256 : ℤ)), usizeSub,
    if_pos (by omega : 1 ≤ 256), Option.some_bind, tblRead,
    if_pos (by simp only [LUT_SZ]; omega : 256 - 1 < LUT_SZ), Option.some_bind, tblWrite,
    if_pos (by simp only [LUT_SZ]; omega : 256 + 255 < LUT_SZ)]
  have hx : ((256 : ℤ) : ℚ) / ((256 : ℤ) : ℚ) = (256 : ℚ) / 256 := by push_cast; ring
  have hprev : refT f 255 (256 - 1) = f (((256 : ℚ) - 1) / 256) := by
    simp only [refT]
    rw [if_pos (by omega : 256 - 1 ≤ 255 ∧ 256 - 1 ≤ 255)]
    norm_num
  rw [hprev]
  refine congrArg some ?_
  funext k
  simp only [refT, hx]
  by_cases e1 : k = 256 + 255
  · subst e1
    rw [if_pos rfl, if_neg (by omega), if_pos (by omega : 256 ≤ 256 + 255 ∧ 256 + 255 ≤ 255 + 256)]
    norm_num
  · rw [if_neg e1]
    split_ifs <;> first | rfl | omega

lemma lutLoop_false_eq (f : ℚ → ℚ) :
    ∀ (n m : ℕ), 1 ≤ m → m + n = 257 →
      lutLoop f false 0 256 n (m : ℤ) (refT f (m - 1)) = some (refT f 256) := by
  intro n
  induction n with
  | zero =>
    intro m h1 h2
    have hm : m = 257 := by omega
    subst hm
    show some (refT f (257 - 1)) = some (refT f 256)
    norm_num
  | succ n ih =>
    intro m h1 h2
    have hstep : lutStep f false 0 256 (refT f (m - 1)) (m : ℤ) = some (refT f m) := by
      rcases Nat.lt_or_ge m 256 with hlt | hge
      · exact lutStep_false_mid f m h1 (by omega)
      · have hm : m = 256 := by omega
        subst hm
        have h255 : (256 : ℕ) - 1 = 255 := by norm_num
        rw [h255]
        exact_mod_cast lutStep_false_last f
    show (lutStep f false 0 256 (refT f (m - 1)) (m : ℤ)).bind
        (lutLoop f false 0 256 n ((m : ℤ) + 1)) = some (refT f 256)
    rw [hstep, Option.some_bind]
    have hcast : ((m : ℤ) + 1) = ((m + 1 : ℕ) : ℤ) := by push_cast; ring
    rw [hcast]
    have := ih (m + 1) (by omega) (by omega)
    simpa using this

lemma from_fn_false_eq (f : ℚ → ℚ) :
    LutData.from_fn f false = some (LutData.mk (refT f 256)) := by
  have h : LutData.from_fn f false =
      (lutLoop f false 0 256 257 0 (fun _ => 0)).map LutData.mk := rfl
  rw [h]
  have h0 : lutLoop f false 0 256 257 0 (fun _ => 0) =
      (lutStep f false 0 256 (fun _ => 0) 0).bind (lutLoop f false 0 256 256 1) := rfl
  rw [h0, lutStep_false_zero, Option.some_bind]
  have h1 := lutLoop_false_eq f 256 1 (by omega) (by omega)
  have h01 : ((1 : ℕ) : ℤ) = (1 : ℤ) := by norm_num
  rw [h01] at h1
  have h10 : (1 : ℕ) - 1 = 0 := by norm_num
  rw [h10] at h1
  rw [h1]
  rfl

lemma lutStep_true_zero (f : ℚ → ℚ) (A : LutTable) :
    lutStep f true (-128) 128 A 0 = none := by
  rw [lutStep_true_def]
  rw [if_pos (by omega : (0 : ℤ) < 128)]
  rw [show (((0 : ℤ) % 256).toNat) = 0 by decide]
  rw [tblWrite, if_pos (by simp only [LUT_SZ]; omega : 0 < LUT_SZ), Option.some_bind,
    if_pos (by omega : (-128 : ℤ) < 0), usizeSub, if_neg (by omega : ¬(1 ≤ 0))]
  rfl

lemma lutStep_true_neg (f : ℚ → ℚ) (A : LutTable) (i : ℤ) (hge : -128 ≤ i)
    (hlt : i < 0) :
    ∃ A2, lutStep f true (-128) 128 A i = some A2 := by
  rw [lutStep_true_def]
  rw [if_pos (by omega : i < 128)]
  rw [tblWrite, if_pos (by simp only [LUT_SZ]; omega : (i % 256).toNat < LUT_SZ), Option.some_bind]
  by_cases hmin : (-128 : ℤ) < i
  · rw [if_pos hmin, usizeSub, if_pos (by omega : 1 ≤ (i % 256).toNat),
      Option.some_bind, tblRead,
      if_pos (by simp only [LUT_SZ]; omega : (i % 256).toNat - 1 < LUT_SZ),
      Option.some_bind, tblWrite,
      if_pos (by simp only [LUT_SZ]; omega : (i % 256).toNat + 255 < LUT_SZ)]
    exact ⟨_, rfl⟩
  · rw [if_neg hmin]
    exact ⟨_, rfl⟩

lemma lutLoop_true_none (f : ℚ → ℚ) :
    ∀ (n : ℕ) (i : ℤ) (A : LutTable), -128 ≤ i → i ≤ 0 → (0 - i).toNat < n →
      lutLoop f true (-128) 128 n i A = none := by
  intro n
  induction n with
  | zero =>
    intro i A h1 h2 h3
    exact absurd h3 (by omega)
  | succ n ih =>
    intro i A h1 h2 h3
    rcases lt_or_eq_of_le h2 with hneg | h0
    · obtain ⟨A2, hA2⟩ := lutStep_true_neg f A i h1 hneg
      show (lutStep f true (-128) 128 A i).bind (lutLoop f true (-128) 128 n (i + 1)) = none
      rw [hA2, Option.some_bind]
      exact ih (i + 1) A2 (by omega) (by omega) (by omega)
    · subst h0
      show (lutStep f true (-128) 128 A 0).bind (lutLoop f true (-128) 128 n (0 + 1)) = none
      rw [lutStep_true_zero]
      rfl

lemma from_fn_true_none (f : ℚ → ℚ) : LutData.from_fn f true = none := by
  have h : LutData.from_fn f true =
      (lutLoop f true (-128) 128 257 (-128) (fun _ => 0)).map LutData.mk := rfl
  rw [h, lutLoop_true_none f 257 (-128) (fun _ => 0) (by omega) (by omega) (by omega)]
  rfl

lemma refT_base (f : ℚ → ℚ) (k : ℕ) (h : k ≤ 255) :
    refT f 256 k = f ((k : ℚ) / 256) := by
  simp only [refT]
  rw [if_pos ⟨h, by omega⟩]

lemma refT_diff (f : ℚ → ℚ) (k : ℕ) (h1 : 256 ≤ k) (h2 : k ≤ 511) :
    refT f 256 k = f (((k : ℚ) - 255) / 256) - f (((k : ℚ) - 256) / 256) := by
  simp only [refT]
  rw [if_neg (by omega), if_pos ⟨h1, by omega⟩]

/-- Claim C2: for every total curve f, from_fn(f, false) returns normally,
but from_fn(f, true) always panics: at loop step i = 0 the index expression
data[idx - 1] is evaluated with idx = 0, a usize underflow.  So LUT
generation is not infallible for both flag values as the spec claims. -/
theorem from_fn_nonnegative_total_negative_panics :
    (∀ f : ℚ → ℚ, ∃ d : LutData, LutData.from_fn f false = some d) ∧
    (∀ f : ℚ → ℚ, LutData.from_fn f true = none) :=
  ⟨fun f => ⟨_, from_fn_false_eq f⟩, fun f => from_fn_true_none f⟩

/-- Claim C3: in non-negative mode the stored base samples are exactly
f(i/256) at index i for i = 0..255, and the sample at the last step x =
256/256 enters (only) the final difference entry; in negative mode the claim
fails: no table is ever produced (the generation panics at step i = 0), so
no entry of any kind can be observed. -/
theorem from_fn_sampling_points_and_indices :
    (∀ (f : ℚ → ℚ) (i : Fin 256), fromFnEntry f false (i : ℕ) = some (f (((i : ℕ) : ℚ) / 256))) ∧
    (∀ f : ℚ → ℚ, fromFnEntry f false 511 = some (f (256 / 256) - f (255 / 256))) ∧
    (∀ (f : ℚ → ℚ) (k : ℕ), fromFnEntry f true k = none) := by
  refine ⟨fun f i => ?_, fun f => ?_, fun f k => ?_⟩
  · rw [fromFnEntry, from_fn_false_eq f, Option.map_some']
    exact congrArg some (refT_base f (i : ℕ) (by omega))
  · rw [fromFnEntry, from_fn_false_eq f, Option.map_some']
    refine congrArg some ?_
    rw [show (LutData.mk (refT f 256)).data 511 = refT f 256 511 from rfl]
    rw [refT_diff f 511 (by omega) (by omega)]
    norm_num
  · rw [fromFnEntry, from_fn_true_none f]
    rfl

/-- Claim C4: for from_fn(f, false) the first 256 entries are the base
samples f(i/256) for i = 0..255, the second half holds at entry 256+i the
forward difference f((i+1)/256) - f(i/256) for each consecutive pair of
steps, and for the identity curve the first-half samples are monotonically
non-decreasing and the second-half entries equal the discrete derivative of
the first half. -/
theorem from_fn_false_table_structure :
    (∀ f : ℚ → ℚ, ∃ d : LutData, LutData.from_fn f false = some d ∧
      (∀ i : Fin 256, d.data (i : ℕ) = f (((i : ℕ) : ℚ) / 256)) ∧
      (∀ i : Fin 256, d.data (256 + (i : ℕ)) =
        f ((((i : ℕ) : ℚ) + 1) / 256) - f (((i : ℕ) : ℚ) / 256))) ∧
    (∃ d : LutData, LutData.from_fn (fun x => x) false = some d ∧
      (∀ i j : Fin 256, (i : ℕ) ≤ (j : ℕ) → d.data (i : ℕ) ≤ d.data (j : ℕ)) ∧
      (∀ i : Fin 255, d.data (256 + (i : ℕ)) =
        d.data ((i : ℕ) + 1) - d.data (i : ℕ))) := by
  have hbase : ∀ (f : ℚ → ℚ) (i : Fin 256),
      (LutData.mk (refT f 256)).data (i : ℕ) = f (((i : ℕ) : ℚ) / 256) :=
    fun f i => refT_base f (i : ℕ) (by omega)
  have hdiff : ∀ (f : ℚ → ℚ) (i : Fin 256),
      (LutData.mk (refT f 256)).data (256 + (i : ℕ)) =
        f ((((i : ℕ) : ℚ) + 1) / 256) - f (((i : ℕ) : ℚ) / 256) := by
    intro f i
    rw [show (LutData.mk (refT f 256)).data (256 + (i : ℕ)) =
      refT f 256 (256 + (i : ℕ)) from rfl]
    rw [refT_diff f (256 + (i : ℕ)) (by omega) (by omega)]
    have a1 : (((256 + (i : ℕ) : ℕ) : ℚ) - 255) / 256 = (((i : ℕ) : ℚ) + 1) / 256 := by
      push_cast; ring
    have a2 : (((256 + (i : ℕ) : ℕ) : ℚ) - 256) / 256 = ((i : ℕ) : ℚ) / 256 := by
      push_cast; ring
    rw [a1, a2]
  refine ⟨fun f => ⟨LutData.mk (refT f 256), from_fn_false_eq f, hbase f, hdiff f⟩,
    ⟨LutData.mk (refT (fun x => x) 256), from_fn_false_eq _, fun i j hij => ?_, fun i => ?_⟩⟩
  · rw [hbase (fun x => x) i, hbase (fun x => x) j]
    have : ((i : ℕ) : ℚ) ≤ ((j : ℕ) : ℚ) := by exact_mod_cast hij
    exact div_le_div_of_nonneg_right this (by norm_num) |>.trans_eq rfl
  · have hi256 : ((i : ℕ)) < 256 := by omega
    have hi1 : ((i : ℕ) + 1) < 256 := by omega
    rw [hdiff (fun x => x) ⟨(i : ℕ), hi256⟩]
    rw [hbase (fun x => x) ⟨(i : ℕ) + 1, hi1⟩, hbase (fun x => x) ⟨(i : ℕ), hi256⟩]
    push_cast
    ring

lemma light_mut_eq_slot (env : LightEnv) (idx : LightIndex) :
    env.light_mut idx = env.lights idx.val := by
  simp [LightEnv.light_mut, getPin, LightIndex.as_usize, idx.val.isLt]

lemma connect_lut_fst_lights (env : LightEnv) (id : LightLutId) (input : LutInput)
    (data : LutData) : (env.connect_lut id input data).1.lights = env.lights := by
  cases h : lutSlotIndex id <;> simp [LightEnv.connect_lut, h]

lemma update_slot_preserves_isSome (a : Fin NB_LIGHTS → Option Light)
    (j i : Fin NB_LIGHTS) (l : Light) (h : (a i).isSome = true) :
    ((Function.update a j (some l)) i).isSome = true := by
  rcases eq_or_ne i j with rfl | hne
  · simp
  · simpa [Function.update_noteq hne] using h

lemma create_light_preserves_isSome (env : LightEnv) (i : Fin NB_LIGHTS)
    (h : (env.lights i).isSome = true) :
    (((env.create_light).1).lights i).isSome = true := by
  rcases hfind : (List.finRange NB_LIGHTS).find? (fun n => (env.lights n).isNone)
    with _ | j <;> simp only [LightEnv.create_light, hfind]
  · exact h
  · exact update_slot_preserves_isSome env.lights j i _ h

lemma modify_light_preserves_isSome (env : LightEnv) (idx : LightIndex)
    (g : Light → Light) (i : Fin NB_LIGHTS) (h : (env.lights i).isSome = true) :
    ((env.modify_light idx g).lights i).isSome = true := by
  rcases hm : env.light_mut idx with _ | l <;> simp only [LightEnv.modify_light, hm]
  · exact h
  · exact update_slot_preserves_isSome env.lights idx.val i _ h

lemma applyOp_preserves_isSome (env : LightEnv) (op : LightEnvOp) (i : Fin NB_LIGHTS)
    (h : (env.lights i).isSome = true) :
    ((env.applyOp op).lights i).isSome = true := by
  cases op with
  | createLight => exact create_light_preserves_isSome env i h
  | connectLut id input data =>
      show (((env.connect_lut id input data).1).lights i).isSome = true
      rw [connect_lut_fst_lights]
      exact h
  | setMaterial m => exact h
  | setPosition idx p => exact modify_light_preserves_isSome env idx _ i h
  | setColor idx r g b => exact modify_light_preserves_isSome env idx _ i h
  | setEnabled idx b => exact modify_light_preserves_isSome env idx _ i h
  | setShadow idx b => exact modify_light_preserves_isSome env idx _ i h

/-- Claim C9: once a light slot is occupied it stays occupied under every
sequence of public operations (create_light, connect_lut, set_material and
the Light mutators); the set of occupied slots only grows. -/
theorem occupied_slots_persist (ops : List LightEnvOp) (env : LightEnv)
    (i : Fin NB_LIGHTS) (h : (env.lights i).isSome = true) :
    ((env.applyOps ops).lights i).isSome = true := by
  induction ops generalizing env with
  | nil => exact h
  | cons op ops ih => exact ih ((env.applyOp op)) (applyOp_preserves_isSome env op i h)

/-- Witness for C9: slot 0 is occupied after one create_light and remains
occupied across a subsequent set_material. -/
theorem occupied_slots_persist_witness :
    ((LightEnv.new.applyOp .createLight).lights 0).isSome = true ∧
    (((LightEnv.new.applyOp .createLight).applyOps
        [.setMaterial Material.mk]).lights 0).isSome = true :=
  ⟨by decide,
   occupied_slots_persist [.setMaterial Material.mk]
     (LightEnv.new.applyOp .createLight) 0 (by decide)⟩

lemma lutFreeInv_new : lutFreeInv LightEnv.new := by
  intro i l h
  simp [LightEnv.new] at h

lemma lutFreeInv_update (env : LightEnv) (j : Fin NB_LIGHTS) (l0 : Light)
    (h : lutFreeInv env) (h0 : l0.spot = none ∧ l0.diffuse_atten = none) :
    ∀ (i : Fin NB_LIGHTS) (l : Light),
      (Function.update env.lights j (some l0)) i = some l →
      l.spot = none ∧ l.diffuse_atten = none := by
  intro i l hl
  rcases eq_or_ne i j with rfl | hne
  · rw [Function.update_same] at hl
    cases hl
    exact h0
  · rw [Function.update_noteq hne] at hl
    exact h i l hl

lemma lutFreeInv_applyOp (env : LightEnv) (op : LightEnvOp) (h : lutFreeInv env) :
    lutFreeInv (env.applyOp op) := by
  have hmut : ∀ (idx : LightIndex) (g : Light → Light),
      (∀ l, (g l).spot = l.spot ∧ (g l).diffuse_atten = l.diffuse_atten) →
      lutFreeInv (env.modify_light idx g) := by
    intro idx g hg
    rcases hm : env.light_mut idx with _ | l <;> simp only [LightEnv.modify_light, hm]
    · exact h
    · have hslot : env.lights idx.val = some l := by
        rw [← light_mut_eq_slot]; exact hm
      have hl := h idx.val l hslot
      refine lutFreeInv_update env idx.val (g l) h ?_
      rw [(hg l).1, (hg l).2]
      exact hl
  cases op with
  | createLight =>
      rcases hfind : (List.finRange NB_LIGHTS).find? (fun n => (env.lights n).isNone)
        with _ | j <;> simp only [lutFreeInv, LightEnv.applyOp, LightEnv.create_light, hfind]
      · exact h
      · exact lutFreeInv_update env j _ h ⟨rfl, rfl⟩
  | connectLut id input data =>
      intro i l hl
      rw [show (env.applyOp (.connectLut id input data)).lights =
        (env.connect_lut id input data).1.lights from rfl, connect_lut_fst_lights] at hl
      exact h i l hl
  | setMaterial m => exact h
  | setPosition idx p => exact hmut idx _ (fun l => ⟨rfl, rfl⟩)
  | setColor idx r g b => exact hmut idx _ (fun l => ⟨rfl, rfl⟩)
  | setEnabled idx b => exact hmut idx _ (fun l => ⟨rfl, rfl⟩)
  | setShadow idx b => exact hmut idx _ (fun l => ⟨rfl, rfl⟩)

lemma lutFreeInv_applyOps (ops : List LightEnvOp) (env : LightEnv)
    (h : lutFreeInv env) : lutFreeInv (env.applyOps ops) := by
  induction ops generalizing env with
  | nil => exact h
  | cons op ops ih => exact ih (env.applyOp op) (lutFreeInv_applyOp env op h)

/-- Claim C10: in every state reachable from a fresh environment through the
public operations, the per-light LUT fields spot and diffuse_atten of every
occupied light slot are None: no public operation ever stores a LutData into
a Light. -/
theorem per_light_luts_never_attached (ops : List LightEnvOp)
    (i : Fin NB_LIGHTS) (l : Light)
    (h : (LightEnv.new.applyOps ops).lights i = some l) :
    l.spot = none ∧ l.diffuse_atten = none :=
  lutFreeInv_applyOps ops LightEnv.new lutFreeInv_new i l h

/-- Witness for C10: after one create_light, slot 0 holds the freshly
created light and both of its per-light LUT fields are None. -/
theorem per_light_luts_never_attached_witness :
    (LightEnv.new.applyOps [.createLight]).lights 0 = some (Light.new RawLight.zeroed) ∧
    ((Light.new RawLight.zeroed).spot = none ∧
      (Light.new RawLight.zeroed).diffuse_atten = none) :=
  ⟨by rfl,
   per_light_luts_never_attached [.createLight] 0 (Light.new RawLight.zeroed) (by rfl)⟩

/-- Witness for C4: the monotonicity conjunct instantiated at the concrete
pair of indices 0 ≤ 1. -/
theorem from_fn_false_table_structure_witness :
    (0 : ℕ) ≤ 1 ∧ ∃ d : LutData, LutData.from_fn (fun x => x) false = some d ∧
      d.data 0 ≤ d.data 1 := by
  refine ⟨by decide, ?_⟩
  obtain ⟨d, hd, hmono, _⟩ := from_fn_false_table_structure.2
  exact ⟨d, hd, hmono 0 1 (by decide)⟩

end Citro3d
